import Mathlib

/-!
Verification of the RedditShield content-filtering engine.

The JavaScript sources (`reddit-shield.js` content script, `popup.js` popup
controller, `background.js` service worker) are shallowly embedded below:
JS strings become `List Char`, JS `Set` objects become insertion-ordered
duplicate-free lists, the Chrome storage areas become finite key-value maps,
and DOM elements become records of their extracted attributes
(`getAttribute` returning `null` is `Option.none`).  Code paths that throw a
`TypeError` (a string method applied to `null`) are embedded as the `error`
branch of `Except`.
-/

namespace RedditShield

/-- A JS string, modelled as its list of characters. -/
abbrev Str := List Char

/-- Model of `String.prototype.toLowerCase` (ASCII case fold, via `Char.toLower`). -/
def lowerStr (s : Str) : Str := s.map Char.toLower

/-- Whitespace test used to model `String.prototype.trim`. -/
def wsB (c : Char) : Bool := c.isWhitespace

/-- Model of `String.prototype.trim`: drop leading and trailing whitespace. -/
def jsTrim (s : Str) : Str := ((s.dropWhile wsB).reverse.dropWhile wsB).reverse

/-- Model of `big.includes(small)`: substring containment. -/
def strContains (big small : Str) : Bool :=
  (List.range (big.length + 1)).any fun i => small.isPrefixOf (big.drop i)

/-- Model of `Set.prototype.add`: insertion-ordered, no duplicates. -/
def setAdd (l : List Str) (x : Str) : List Str := if x ∈ l then l else l ++ [x]

/-- Model of `Set.prototype.has`. -/
def setHas (l : List Str) (x : Str) : Bool := decide (x ∈ l)

/-- The four filter rule categories. -/
inductive Category
  | community
  | keyword
  | user
  | domain
deriving DecidableEq, Repr

/-- The content script's module-level filtering state: the four ban sets and
the five boolean preference flags (`__user_bans` … `__filter_domains`). -/
structure RuleStore where
  userBans : List Str
  keywordBans : List Str
  subredditBans : List Str
  domainBans : List Str
  loggingEnabled : Bool
  filterUsers : Bool
  filterKeywords : Bool
  filterSubreddits : Bool
  filterDomains : Bool
deriving Repr, DecidableEq

/-- A `shreddit-post` element as seen through `getAttribute`: each attribute
may be absent (`none`, i.e. JS `null`). -/
structure PostAttrs where
  subredditPrefixedName : Option Str
  postTitle : Option Str
  author : Option Str
  domain : Option Str
deriving Repr, DecidableEq

/-- A `shreddit-post` element carrying all four attributes. -/
structure FullPost where
  subredditPrefixedName : Str
  postTitle : Str
  author : Str
  domain : Str
deriving Repr, DecidableEq

/-- View a `FullPost` as raw attributes (all present). -/
def FullPost.toAttrs (p : FullPost) : PostAttrs :=
  ⟨some p.subredditPrefixedName, some p.postTitle, some p.author, some p.domain⟩

/-- The author and domain branches of the per-post body of `_posts_ban`
(lines 129-158): user exact match, then domain match; `_domain.toLowerCase()`
on an absent attribute throws, embedded as `Except.error`. -/
def decideAuthorDomain (st : RuleStore) (p : PostAttrs) : Except Unit (Option Category) :=
  if st.filterUsers && (match p.author with | some a => setHas st.userBans a | none => false) then
    Except.ok (some Category.user)
  else if st.filterDomains then
    match p.domain with
    | none => Except.error ()
    | some d =>
      if setHas st.domainBans (lowerStr d) then Except.ok (some Category.domain)
      else Except.ok none
  else
    Except.ok none

/-- The per-post body of `_posts_ban` (lines 84-158), on raw attributes:
`subreddit-prefixed-name` is sliced unconditionally (absent ⇒ throw); the
subreddit branch runs next; `_title.toLowerCase()` is computed before the
keyword loop regardless of `__filter_keywords` (absent title ⇒ throw there);
then the keyword loop, then author, then domain.  `some cat` means the post
is hidden with the given reported category. -/
def decideE (st : RuleStore) (p : PostAttrs) : Except Unit (Option Category) :=
  match p.subredditPrefixedName with
  | none => Except.error ()
  | some spn =>
    if st.filterSubreddits && setHas st.subredditBans (lowerStr (spn.drop 2)) then
      Except.ok (some Category.community)
    else
      match p.postTitle with
      | none => Except.error ()
      | some title =>
        match
          (if st.filterKeywords then
            st.keywordBans.find? (fun k => strContains (lowerStr title) k)
          else none) with
        | some _ => Except.ok (some Category.keyword)
        | none => decideAuthorDomain st p

/-- The same per-post decision on a post carrying all four attributes
(the total fragment of `decideE`). -/
def decideFull (st : RuleStore) (p : FullPost) : Option Category :=
  if st.filterSubreddits && setHas st.subredditBans (lowerStr (p.subredditPrefixedName.drop 2)) then
    some Category.community
  else
    match
      (if st.filterKeywords then
        st.keywordBans.find? (fun k => strContains (lowerStr p.postTitle) k)
      else none) with
    | some _ => some Category.keyword
    | none =>
      if st.filterUsers && setHas st.userBans p.author then some Category.user
      else if st.filterDomains && setHas st.domainBans (lowerStr p.domain) then some Category.domain
      else none

/-- Spec-side predicate: the element matches an enabled community rule. -/
def communityHitB (st : RuleStore) (p : FullPost) : Bool :=
  st.filterSubreddits && setHas st.subredditBans (lowerStr (p.subredditPrefixedName.drop 2))

/-- Spec-side predicate: some enabled keyword occurs in the lower-cased title. -/
def keywordHitB (st : RuleStore) (p : FullPost) : Bool :=
  st.filterKeywords && st.keywordBans.any fun k => strContains (lowerStr p.postTitle) k

/-- Spec-side predicate: the author is an enabled author rule (exact match). -/
def userHitB (st : RuleStore) (p : FullPost) : Bool :=
  st.filterUsers && setHas st.userBans p.author

/-- Spec-side predicate: the lower-cased domain is an enabled domain rule. -/
def domainHitB (st : RuleStore) (p : FullPost) : Bool :=
  st.filterDomains && setHas st.domainBans (lowerStr p.domain)

/-- The matcher as the spec words it: first category hit in the fixed
priority order community, keyword, author, domain. -/
def priorityDecide (st : RuleStore) (p : FullPost) : Option Category :=
  if communityHitB st p then some Category.community
  else if keywordHitB st p then some Category.keyword
  else if userHitB st p then some Category.user
  else if domainHitB st p then some Category.domain
  else none

theorem find?_isSome_any (l : List Str) (p : Str → Bool) :
    (l.find? p).isSome = l.any p := by
  cases h : l.find? p with
  | none =>
    have h0 := List.find?_eq_none.mp h
    simp only [Option.isSome_none]
    exact (List.any_eq_false.mpr h0).symm
  | some a =>
    have hp := List.find?_some h
    have hm := List.mem_of_find?_eq_some h
    simp only [Option.isSome_some]
    exact (List.any_eq_true.mpr ⟨a, hm, hp⟩).symm

theorem decideE_toAttrs (st : RuleStore) (p : FullPost) :
    decideE st p.toAttrs = Except.ok (decideFull st p) := by
  unfold decideE decideFull decideAuthorDomain FullPost.toAttrs
  by_cases h1 : st.filterSubreddits && setHas st.subredditBans (lowerStr (p.subredditPrefixedName.drop 2))
  · simp [h1]
  · simp only [h1, if_false, Bool.false_eq_true]
    cases hk : (if st.filterKeywords then
        st.keywordBans.find? (fun k => strContains (lowerStr p.postTitle) k)
      else none) with
    | some a => simp [hk]
    | none =>
      simp only [hk]
      by_cases h2 : st.filterUsers && setHas st.userBans p.author
      · simp [h2]
      · simp only [h2, if_false, Bool.false_eq_true]
        by_cases h3 : st.filterDomains
        · by_cases h4 : setHas st.domainBans (lowerStr p.domain) <;> simp [h3, h4]
        · simp [h3]

/-- C1 — the Matcher evaluates the four categories in the fixed priority
order community, keyword, author, domain, short-circuiting at the first
match; in particular an element matching both an enabled community rule and
an enabled keyword rule is reported as community, never keyword. -/
theorem matcher_priority_order (st : RuleStore) (p : FullPost) :
    decideFull st p = priorityDecide st p ∧
      (communityHitB st p = true → keywordHitB st p = true →
        decideFull st p = some Category.community) := by
  have hmain : decideFull st p = priorityDecide st p := by
    unfold decideFull priorityDecide communityHitB keywordHitB userHitB domainHitB
    by_cases h1 : st.filterSubreddits && setHas st.subredditBans (lowerStr (p.subredditPrefixedName.drop 2))
    · simp [h1]
    · simp only [h1, if_false, Bool.false_eq_true]
      have hkw : (if st.filterKeywords then
            st.keywordBans.find? (fun k => strContains (lowerStr p.postTitle) k)
          else none).isSome
          = (st.filterKeywords && st.keywordBans.any fun k => strContains (lowerStr p.postTitle) k) := by
        cases hf : st.filterKeywords
        · simp
        · simp [find?_isSome_any]
      cases hk : (if st.filterKeywords then
          st.keywordBans.find? (fun k => strContains (lowerStr p.postTitle) k)
        else none) with
      | some a =>
        rw [hk] at hkw
        simp only [Option.isSome_some] at hkw
        simp [← hkw]
      | none =>
        rw [hk] at hkw
        simp only [Option.isSome_none] at hkw
        simp [← hkw]
  refine ⟨hmain, fun hc hk => ?_⟩
  rw [hmain]
  unfold priorityDecide
  simp [hc]

/-- Witness for C1: a concrete post matching both an enabled community rule
and an enabled keyword rule is reported as community. -/
theorem matcher_priority_order_witness :
    decideFull
      ⟨[], ["sale".data], ["funny".data], [], false, false, true, true, false⟩
      ⟨"r/funny".data, "Big Sale".data, "ann".data, "x.com".data⟩
      = some Category.community :=
  (matcher_priority_order _ _).2 (by decide) (by decide)

theorem kwBranch_eq_none (f : Bool) (l : List Str) (p : Str → Bool)
    (h : (f && l.any p) = false) :
    (if f then l.find? p else none) = none := by
  cases f
  · simp
  · simp only [Bool.true_and] at h
    simp only [if_true]
    have hs := find?_isSome_any l p
    rw [h] at hs
    exact Option.not_isSome_iff_eq_none.mp (by simp [hs])

/-- C9 counterexample — a visible listing element whose domain attribute is
the empty string is hidden by a domain rule: with the empty string stored as
a domain rule (a blank configured line) and domain filtering enabled, the
matcher reports category domain, contradicting "never hidden by a domain
rule". -/
theorem empty_domain_hidden_counterexample :
    decideE
      ⟨[], [], [], [[]], false, false, false, false, true⟩
      ⟨some "r/a".data, some "t".data, some "u".data, some []⟩
      = Except.ok (some Category.domain) := by rfl

/-- C9 (amended) — the domain branch has no emptiness guard: a visible
listing element with an empty (present) domain attribute reaching the domain
branch is hidden exactly when the empty string is a stored domain rule, and
evaluating that branch does not fault; with an absent domain attribute and
domain filtering enabled, the branch faults instead of being skipped. -/
theorem domain_branch_no_guard (st : RuleStore) (spn title author : Str)
    (hc : (st.filterSubreddits && setHas st.subredditBans (lowerStr (spn.drop 2))) = false)
    (hk : (st.filterKeywords && st.keywordBans.any fun k => strContains (lowerStr title) k) = false)
    (hu : (st.filterUsers && setHas st.userBans author) = false) :
    decideE st ⟨some spn, some title, some author, some []⟩
      = Except.ok (if st.filterDomains && setHas st.domainBans [] then some Category.domain else none)
    ∧ (st.filterDomains = true →
        decideE st ⟨some spn, some title, some author, none⟩ = Except.error ()) := by
  have hkn := kwBranch_eq_none st.filterKeywords st.keywordBans
    (fun k => strContains (lowerStr title) k) hk
  constructor
  · unfold decideE decideAuthorDomain
    simp only [hc, Bool.false_eq_true, if_false, hkn, hu]
    by_cases h3 : st.filterDomains
    · by_cases h4 : setHas st.domainBans (lowerStr []) <;>
        simp_all [lowerStr]
    · simp [h3, lowerStr]
  · intro h3
    unfold decideE decideAuthorDomain
    simp [hc, hkn, hu, h3]

/-- Witness for C9 (amended): concrete inputs discharging the hypotheses. -/
theorem domain_branch_no_guard_witness :
    decideE
      ⟨[], [], [], [[]], false, false, false, false, true⟩
      ⟨some "r/a".data, some "t".data, some "u".data, none⟩
      = Except.error () :=
  (domain_branch_no_guard
    ⟨[], [], [], [[]], false, false, false, false, true⟩
    "r/a".data "t".data "u".data (by decide) (by decide) (by decide)).2 rfl

/-- C10 counterexample — a visible listing element with an absent title does
NOT always fault: if its community matches an enabled community rule, the
community branch hides it before the title is ever read, so the evaluation
returns normally. -/
theorem absent_title_no_fault_counterexample :
    decideE
      ⟨[], [], ["funny".data], [], false, false, false, true, false⟩
      ⟨some "r/Funny".data, none, none, none⟩
      = Except.ok (some Category.community) := by rfl

/-- C10 (amended) — an absent community-prefixed-name always faults; an
absent title faults exactly when the community branch does not hide the
element first (the title is lower-cased before the keyword loop, for every
flag configuration). -/
theorem listing_scan_absent_fields (st : RuleStore) (title author domain : Option Str)
    (spn : Str) :
    decideE st ⟨none, title, author, domain⟩ = Except.error ()
    ∧ ((st.filterSubreddits && setHas st.subredditBans (lowerStr (spn.drop 2))) = false →
        decideE st ⟨some spn, none, author, domain⟩ = Except.error ())
    ∧ ((st.filterSubreddits && setHas st.subredditBans (lowerStr (spn.drop 2))) = true →
        decideE st ⟨some spn, none, author, domain⟩ = Except.ok (some Category.community)) := by
  refine ⟨rfl, fun hc => ?_, fun hc => ?_⟩
  · unfold decideE
    simp [hc]
  · unfold decideE
    simp [hc]

/-- Witness for C10 (amended): concrete inputs discharging the hypotheses. -/
theorem listing_scan_absent_fields_witness :
    decideE
      ⟨[], [], ["funny".data], [], false, false, false, true, false⟩
      ⟨some "r/other".data, none, none, none⟩
      = Except.error () :=
  (listing_scan_absent_fields
    ⟨[], [], ["funny".data], [], false, false, false, true, false⟩
    none none none "r/other".data).2.1 (by decide)

/-- A `shreddit-post` element together with its display state: `hidden` is
true when the computed display is "none". -/
structure DomPost where
  post : FullPost
  hidden : Bool
deriving Repr, DecidableEq

/-- The visible-post pass of `_posts_ban` (lines 78-159) over the queried
snapshot: already-hidden posts are skipped; a visible post matching the
store is set to display none and counted.  Returns the updated snapshot and
the number of newly hidden posts. -/
def scanPosts (st : RuleStore) : List DomPost → List DomPost × Nat
  | [] => ([], 0)
  | q :: rest =>
    let r := scanPosts st rest
    if q.hidden then (q :: r.1, r.2)
    else
      match decideFull st q.post with
      | some _ => ({ q with hidden := true } :: r.1, r.2 + 1)
      | none => (q :: r.1, r.2)

/-- The navigation-sensitive page state of the content script:
`__filtered_count` and `__current_url`. -/
structure PageState where
  count : Nat
  curUrl : Str
deriving Repr, DecidableEq

/-- Lines 305-317 of `_options_process` in listing mode: reset the counter
exactly when the observed location differs from the tracked one, then run
the scan, accumulating newly hidden posts into the counter. -/
def optionsScanStep (st : RuleStore) (newUrl : Str) (ps : PageState) (dom : List DomPost) :
    PageState × List DomPost :=
  let ps1 := if newUrl ≠ ps.curUrl then PageState.mk 0 newUrl else ps
  let r := scanPosts st dom
  (PageState.mk (ps1.count + r.2) ps1.curUrl, r.1)

theorem scanPosts_count (st : RuleStore) (dom : List DomPost) :
    (scanPosts st dom).2 = dom.countP fun q => !q.hidden && (decideFull st q.post).isSome := by
  induction dom with
  | nil => rfl
  | cons q rest ih =>
    by_cases hq : q.hidden
    · simp [scanPosts, hq, List.countP_cons, ih]
    · cases hd : decideFull st q.post <;>
        simp [scanPosts, hq, hd, List.countP_cons, ih]

theorem scanPosts_rescan (st : RuleStore) (dom : List DomPost) :
    scanPosts st (scanPosts st dom).1 = ((scanPosts st dom).1, 0) := by
  induction dom with
  | nil => rfl
  | cons q rest ih =>
    by_cases hq : q.hidden
    · simp [scanPosts, hq, ih]
    · cases hd : decideFull st q.post with
      | some c => simp [scanPosts, hq, hd, ih]
      | none => simp [scanPosts, hq, hd, ih]

/-- C4 — the hidden-item counter is reset to 0 exactly when the observed
location changes identity and at no other time; within one page lifetime it
is never decremented; already-hidden elements are never counted, so a
re-scan of an already-processed snapshot adds 0. -/
theorem hidden_counter_invariants (st : RuleStore) (newUrl : Str) (ps : PageState)
    (dom : List DomPost) :
    (optionsScanStep st newUrl ps dom).1.count
        = (if newUrl = ps.curUrl then ps.count else 0) + (scanPosts st dom).2
    ∧ (scanPosts st dom).2 = dom.countP (fun q => !q.hidden && (decideFull st q.post).isSome)
    ∧ (newUrl = ps.curUrl → ps.count ≤ (optionsScanStep st newUrl ps dom).1.count)
    ∧ scanPosts st (scanPosts st dom).1 = ((scanPosts st dom).1, 0) := by
  refine ⟨?_, scanPosts_count st dom, fun h => ?_, scanPosts_rescan st dom⟩
  · unfold optionsScanStep
    by_cases h : newUrl = ps.curUrl <;> simp [h]
  · unfold optionsScanStep
    simp [h]

/-- Witness for C4: a concrete no-navigation step does not decrease the
counter, and a rescan of the processed snapshot adds nothing. -/
theorem hidden_counter_invariants_witness :
    (PageState.mk 5 "u".data).count
        ≤ (optionsScanStep
            ⟨[], [], [], [], false, false, false, false, false⟩
            "u".data (PageState.mk 5 "u".data)
            [⟨⟨"r/a".data, "t".data, "u".data, "d".data⟩, false⟩]).1.count
    ∧ scanPosts ⟨[], [], [], [], false, false, false, false, false⟩
        (scanPosts ⟨[], [], [], [], false, false, false, false, false⟩
          [⟨⟨"r/a".data, "t".data, "u".data, "d".data⟩, false⟩]).1
      = ((scanPosts ⟨[], [], [], [], false, false, false, false, false⟩
          [⟨⟨"r/a".data, "t".data, "u".data, "d".data⟩, false⟩]).1, 0) :=
  ⟨(hidden_counter_invariants
      ⟨[], [], [], [], false, false, false, false, false⟩
      "u".data (PageState.mk 5 "u".data)
      [⟨⟨"r/a".data, "t".data, "u".data, "d".data⟩, false⟩]).2.2.1 rfl,
   (hidden_counter_invariants
      ⟨[], [], [], [], false, false, false, false, false⟩
      "u".data (PageState.mk 5 "u".data)
      [⟨⟨"r/a".data, "t".data, "u".data, "d".data⟩, false⟩]).2.2.2⟩

/-- Case-insensitive literal head match, modelling the `/i` flag of the
domain regex: `p` is given lower-case. -/
def ciStarts (p : Str) (s : Str) : Bool := decide (lowerStr (s.take p.length) = p)

/-- Characters matched by the regex class `[^\/\?#]`. -/
def hostChar (c : Char) : Bool := !(c = '/' || c = '?' || c = '#')

/-- JS line terminators, which `.` (no `s` flag) does not match. -/
def lineTerm (c : Char) : Bool := c = '\n' || c = '\r' || c = '\u2028' || c = '\u2029'

/-- After the optional prefixes, `([^\/\?#]+).*$` must consume the rest:
a non-empty greedy host run, then `.*$` succeeds iff the remainder holds no
line terminator. -/
def hostTry (rest : Str) : Option Str :=
  let host := rest.takeWhile hostChar
  if host = [] then none
  else if (rest.drop host.length).any lineTerm then none
  else some host

/-- One backtracking attempt of the anchored domain regex with a fixed
optional-group choice `pre` (scheme and/or `www.`, matched case-insensitively). -/
def extractAttempt (s : Str) (pre : Str) : Option Str :=
  if ciStarts pre s then hostTry (s.drop pre.length) else none

/-- The optional-group choices of `^(?:https?:\/\/)?(?:www\.)?…` in JS
backtracking order (greedy: longest scheme first, `www.` preferred). -/
def regexChoices : List Str :=
  ["https://www.".data, "https://".data, "http://www.".data, "http://".data,
   "www.".data, []]

/-- Model of `_domain.replace(/^(?:https?:\/\/)?(?:www\.)?([^\/\?#]+).*$/i, "$1")`
followed by `|| ""`: on a match the whole string is replaced by the captured
host; on no match the input is returned unchanged (the `|| ""` only turns an
empty result into the empty string, which is the identity here). -/
def jsDomainExtract (s : Str) : Str :=
  match regexChoices.findSome? (extractAttempt s) with
  | some h => h
  | none => s

/-- Lines 237-246 of `_options_process`: populate `__user_bans`, stripping a
leading `u/`. -/
def processUsers (raw : List Str) : List Str :=
  raw.foldl (fun acc u =>
    setAdd acc (if 2 ≤ u.length ∧ u.take 2 = ['u', '/'] then u.drop 2 else u)) []

/-- Lines 249-256: populate `__keyword_bans`, dropping entries whose trim is
empty, lower-casing the (untrimmed) keyword. -/
def processKeywords (raw : List Str) : List Str :=
  raw.foldl (fun acc k => if jsTrim k ≠ [] then setAdd acc (lowerStr k) else acc) []

/-- Lines 259-268: populate `__subreddit_bans`, stripping a leading `r/` and
lower-casing. -/
def processSubreddits (raw : List Str) : List Str :=
  raw.foldl (fun acc s =>
    setAdd acc (lowerStr (if 2 ≤ s.length ∧ s.take 2 = ['r', '/'] then s.drop 2 else s))) []

/-- Lines 271-278: populate `__domain_bans` via the regex extraction and
lower-casing. -/
def processDomains (raw : List Str) : List Str :=
  raw.foldl (fun acc d => setAdd acc (lowerStr (jsDomainExtract d))) []

/-- The list-valued part of a stored configuration record (absent keys are
`none`; JS truthiness of an absent key skips the population loop). -/
structure RawConfig where
  hiddenUsers : Option (List Str)
  hiddenKeywords : Option (List Str)
  hiddenSubreddits : Option (List Str)
  hiddenDomains : Option (List Str)
deriving Repr, DecidableEq

/-- The four ban sets produced by a `_options_process` reload (lines 229-278):
user, keyword, subreddit, domain. -/
def optionsProcessSets (r : RawConfig) : List Str × List Str × List Str × List Str :=
  (processUsers (r.hiddenUsers.getD []),
   processKeywords (r.hiddenKeywords.getD []),
   processSubreddits (r.hiddenSubreddits.getD []),
   processDomains (r.hiddenDomains.getD []))

/-- C3 — the claim that no rule set ever contains an empty entry fails: a
raw configuration consisting of one empty line per category leaves the empty
string stored in the author, community and domain ban sets after a reload
(only the keyword path drops entries that trim to empty). -/
theorem empty_entries_survive_reload :
    optionsProcessSets ⟨some [[]], some [[]], some [[]], some [[]]⟩
      = ([[]], [], [[]], [[]])
    ∧ ([] : Str) ∈ processUsers [[]] := by decide

theorem charToNat_ofNat (n : Nat) (h : n.isValidChar) : (Char.ofNat n).toNat = n := by
  simp only [Char.ofNat, dif_pos h, Char.ofNatAux, Char.toNat, UInt32.toNat, BitVec.toNat_ofNatLt]

theorem char_toLower_toLower (c : Char) : c.toLower.toLower = c.toLower := by
  unfold Char.toLower
  by_cases h : c.toNat ≥ 65 ∧ c.toNat ≤ 90
  · have ht : (Char.ofNat (c.toNat + 32)).toNat = c.toNat + 32 :=
      charToNat_ofNat _ (Or.inl (by omega))
    rw [if_pos h, if_neg]
    rw [ht]
    omega
  · rw [if_neg h, if_neg h]

theorem char_ws_large (d : Char) (h : 33 ≤ d.toNat) : d.isWhitespace = false := by
  unfold Char.isWhitespace
  refine Bool.or_eq_false_iff.mpr ⟨Bool.or_eq_false_iff.mpr
    ⟨Bool.or_eq_false_iff.mpr ⟨?_, ?_⟩, ?_⟩, ?_⟩ <;>
    { apply decide_eq_false; rintro rfl; exact absurd h (by decide) }

theorem char_ws_toLower (c : Char) : c.toLower.isWhitespace = c.isWhitespace := by
  unfold Char.toLower
  by_cases h : c.toNat ≥ 65 ∧ c.toNat ≤ 90
  · have ht : (Char.ofNat (c.toNat + 32)).toNat = c.toNat + 32 :=
      charToNat_ofNat _ (Or.inl (by omega))
    rw [if_pos h, char_ws_large _ (by rw [ht]; omega), char_ws_large c (by omega)]
  · rw [if_neg h]

theorem wsB_toLower (c : Char) : wsB (Char.toLower c) = wsB c := char_ws_toLower c

theorem lowerStr_idem (s : Str) : lowerStr (lowerStr s) = lowerStr s := by
  unfold lowerStr
  rw [List.map_map]
  exact List.map_congr_left fun a _ => char_toLower_toLower a

theorem dropWhile_idem (p : Char → Bool) (l : List Char) :
    (l.dropWhile p).dropWhile p = l.dropWhile p := by
  induction l with
  | nil => rfl
  | cons a l ih => by_cases h : p a <;> simp [List.dropWhile_cons, h, ih]

theorem jsTrim_lowerStr (s : Str) : jsTrim (lowerStr s) = lowerStr (jsTrim s) := by
  have hw : wsB ∘ Char.toLower = wsB := funext wsB_toLower
  unfold jsTrim lowerStr
  rw [List.dropWhile_map, hw, ← List.map_reverse, List.dropWhile_map, hw, ← List.map_reverse]

theorem jsTrim_idem (s : Str) : jsTrim (jsTrim s) = jsTrim s := by
  have hA : (s.dropWhile wsB).dropWhile wsB = s.dropWhile wsB := dropWhile_idem wsB s
  have hpre : jsTrim s <+: s.dropWhile wsB := by
    have hsuf : ((s.dropWhile wsB).reverse.dropWhile wsB) <:+ (s.dropWhile wsB).reverse :=
      List.dropWhile_suffix wsB
    have := List.reverse_prefix.mpr hsuf
    rwa [List.reverse_reverse] at this
  obtain ⟨r, hr⟩ := hpre
  have hhead : (jsTrim s).dropWhile wsB = jsTrim s := by
    cases ht : jsTrim s with
    | nil => rfl
    | cons a t =>
      have hr' : s.dropWhile wsB = a :: (t ++ r) := by
        rw [← hr, ht]
        simp
      have hwa : wsB a = false := by
        by_contra hcon
        have hwa' : wsB a = true := by revert hcon; cases wsB a <;> simp
        rw [hr', List.dropWhile_cons, if_pos hwa'] at hA
        have hlen := congrArg List.length hA
        have hle := (List.dropWhile_suffix (l := t ++ r) wsB).sublist.length_le
        simp only [List.length_cons] at hlen
        omega
      rw [List.dropWhile_cons, if_neg (by simp [hwa])]
  have htail : (jsTrim s).reverse.dropWhile wsB = (jsTrim s).reverse := by
    unfold jsTrim
    rw [List.reverse_reverse, dropWhile_idem]
  show (((jsTrim s).dropWhile wsB).reverse.dropWhile wsB).reverse = jsTrim s
  rw [hhead, htail, List.reverse_reverse]

/-- The composite author normalization: the popup's per-line trim
(`popup.js` line 102) followed by the content script's `u/` strip
(lines 237-245). -/
def normUser (s : Str) : Str :=
  let t := jsTrim s
  if 2 ≤ t.length ∧ t.take 2 = ['u', '/'] then t.drop 2 else t

/-- The composite keyword normalization: trim, then lower-case
(lines 249-256). -/
def normKeyword (s : Str) : Str := lowerStr (jsTrim s)

/-- The composite community normalization: trim, `r/` strip, lower-case
(lines 259-268). -/
def normSubreddit (s : Str) : Str :=
  let t := jsTrim s
  lowerStr (if 2 ≤ t.length ∧ t.take 2 = ['r', '/'] then t.drop 2 else t)

/-- The composite domain normalization: trim, URL-to-bare-host regex
extraction, lower-case (lines 271-278). -/
def normDomain (s : Str) : Str := lowerStr (jsDomainExtract (jsTrim s))

/-- C8 counterexample — the author normalization is not idempotent: each
application strips only one leading `u/`, so `u/u/alice` normalizes to
`u/alice`, which normalizes further to `alice`. -/
theorem normalizer_not_idempotent :
    normUser (normUser "u/u/alice".data) ≠ normUser "u/u/alice".data := by decide

/-- C8 (amended) — the keyword normalization (trim then lower-case) is
idempotent; the author, community and domain normalizations are not, since
prefix stripping (`u/`, `r/`, `www.`) removes one leading prefix per
application. -/
theorem normalizer_idempotence (s : Str) :
    normKeyword (normKeyword s) = normKeyword s
    ∧ normUser (normUser "u/u/alice".data) ≠ normUser "u/u/alice".data
    ∧ normSubreddit (normSubreddit "r/r/funny".data) ≠ normSubreddit "r/r/funny".data
    ∧ normDomain (normDomain "www.www.example.com".data) ≠ normDomain "www.www.example.com".data := by
  refine ⟨?_, by decide, by decide, by decide⟩
  unfold normKeyword
  rw [jsTrim_lowerStr, jsTrim_idem, lowerStr_idem]

/-- The boolean preference keys of a loaded storage record, current-named
and legacy-named, each possibly absent. -/
structure PrefRecord where
  loggingEnabled : Option Bool
  filterUsers : Option Bool
  filterKeywords : Option Bool
  filterSubreddits : Option Bool
  filterDomains : Option Bool
  blockUsers : Option Bool
  blockKeywords : Option Bool
  blockSubreddits : Option Bool
  blockDomains : Option Bool
deriving Repr, DecidableEq

/-- The in-memory preference flags of the content script. -/
structure Prefs where
  loggingEnabled : Bool
  filterUsers : Bool
  filterKeywords : Bool
  filterSubreddits : Bool
  filterDomains : Bool
deriving Repr, DecidableEq

/-- The initial values of the preference globals (lines 42-46). -/
def initPrefs : Prefs := ⟨false, false, false, false, false⟩

/-- A record with every preference key absent. -/
def emptyPrefRecord : PrefRecord := ⟨none, none, none, none, none, none, none, none, none⟩

/-- Lines 281-303 of `_options_process`: each flag is overwritten from the
current-named key if defined, else from the legacy-named key if defined,
and otherwise KEPT at its previous in-memory value. -/
def prefsProcess (prev : Prefs) (r : PrefRecord) : Prefs where
  loggingEnabled :=
    match r.loggingEnabled with
    | some v => v
    | none => prev.loggingEnabled
  filterUsers :=
    match r.filterUsers with
    | some v => v
    | none =>
      match r.blockUsers with
      | some v => v
      | none => prev.filterUsers
  filterKeywords :=
    match r.filterKeywords with
    | some v => v
    | none =>
      match r.blockKeywords with
      | some v => v
      | none => prev.filterKeywords
  filterSubreddits :=
    match r.filterSubreddits with
    | some v => v
    | none =>
      match r.blockSubreddits with
      | some v => v
      | none => prev.filterSubreddits
  filterDomains :=
    match r.filterDomains with
    | some v => v
    | none =>
      match r.blockDomains with
      | some v => v
      | none => prev.filterDomains

/-- The reload the spec words describe: current key if present, else legacy
key if present, else false. -/
def specPrefsReload (r : PrefRecord) : Prefs where
  loggingEnabled := r.loggingEnabled.getD false
  filterUsers := r.filterUsers.getD (r.blockUsers.getD false)
  filterKeywords := r.filterKeywords.getD (r.blockKeywords.getD false)
  filterSubreddits := r.filterSubreddits.getD (r.blockSubreddits.getD false)
  filterDomains := r.filterDomains.getD (r.blockDomains.getD false)

/-- C5 counterexample — a reload does not fully overwrite the preference
flags: with `filterUsers` true in memory and a record in which both
`filterUsers` and `blockUsers` are absent, the flag stays true after the
reload, where the claim demands the default false. -/
theorem prefs_reload_keeps_stale_flag :
    (prefsProcess ⟨false, true, false, false, false⟩
        ⟨none, none, none, none, none, none, none, none, none⟩).filterUsers ≠ false := by
  decide

/-- C5 (amended) — after a reload each flag equals the current-named key if
present, else the legacy-named key if present, else its pre-reload
in-memory value; since the flags start false, a reload from the initial
state realizes the current-else-legacy-else-false rule, and a reload from an
all-absent record leaves the flags unchanged instead of resetting them. -/
theorem prefs_reload_fallback (r : PrefRecord) (prev : Prefs) :
    prefsProcess initPrefs r = specPrefsReload r
    ∧ prefsProcess prev emptyPrefRecord = prev := by
  constructor
  · obtain ⟨le, fu, fk, fs, fd, bu, bk, bs, bd⟩ := r
    unfold prefsProcess specPrefsReload initPrefs
    simp only [Prefs.mk.injEq]
    refine ⟨?_, ?_, ?_, ?_, ?_⟩
    · cases le <;> rfl
    · cases fu <;> cases bu <;> rfl
    · cases fk <;> cases bk <;> rfl
    · cases fs <;> cases bs <;> rfl
    · cases fd <;> cases bd <;> rfl
  · obtain ⟨le, fu, fk, fs, fd⟩ := prev
    rfl

/-- `_cleanup_get_users` (lines 433-446): fold over all post and comment
elements, pushing each truthy author (`_author &&` skips both an absent and
an empty author, since `""` is falsy) that is not already in the author ban
set — with no deduplication inside the collected list. -/
def cleanupGetUsers (elems : List (Option Str)) (userBans : List Str) : List Str :=
  elems.foldl (fun acc a? =>
    match a? with
    | some a =>
      if a = [] then acc
      else if setHas userBans a then acc
      else acc ++ [a]
    | none => acc) []

/-- C2 — over elements with authors ["alice","bob","alice"] and an empty
author rule set, `_cleanup_get_users` returns ["alice","bob","alice"]: the
already-banned filter does not deduplicate repeated authors within the
thread, contradicting the claimed ["alice","bob"]. -/
theorem cleanup_users_not_deduplicated :
    cleanupGetUsers [some "alice".data, some "bob".data, some "alice".data] []
      = ["alice".data, "bob".data, "alice".data]
    ∧ ["alice".data, "bob".data, "alice".data] ≠ ["alice".data, "bob".data] := by
  decide

/-- A JSON-like response value: the shapes sent by `_send_response`. -/
inductive RVal
  | num (n : Nat)
  | str (s : Str)
  | list (l : List Str)
deriving DecidableEq, Repr

/-- `_cleanup_get_keywords` (lines 449-465): the stored keywords that occur
in some truthy title (`_title &&` skips an absent or empty title),
lower-cased, insertion-ordered. -/
def cleanupGetKeywords (keywordBans : List Str) (titles : List (Option Str)) : List Str :=
  keywordBans.foldl (fun acc k =>
    titles.foldl (fun acc2 t? =>
      match t? with
      | some t =>
        if t = [] then acc2
        else if strContains (lowerStr t) (lowerStr k) then setAdd acc2 (lowerStr k)
        else acc2
      | none => acc2) acc) []

/-- `_cleanup_get_subreddits` (lines 468-487): the stored subreddits whose
lower-cased name equals some truthy prefixed name (`if (_subreddit_full)`
skips an absent or empty one) with its first two characters sliced off. -/
def cleanupGetSubreddits (subredditBans : List Str) (spns : List (Option Str)) : List Str :=
  subredditBans.foldl (fun acc sb =>
    spns.foldl (fun acc2 s? =>
      match s? with
      | some s =>
        if s = [] then acc2
        else if lowerStr (s.drop 2) = lowerStr sb then setAdd acc2 (lowerStr sb)
        else acc2
      | none => acc2) acc) []

/-- `_cleanup_request_handle` (lines 347-430) as the response it sends, a
list of (field name, value) pairs; `none` when the action is unrecognized
and no response is sent.  `authors` are the author attributes of all posts
and comments, `titles` and `spns` the title and prefixed-name attributes of
all posts. -/
def cleanupRequestHandle (st : RuleStore) (authors titles spns : List (Option Str))
    (isThread : Bool) (action : String) : Option (List (String × RVal)) :=
  if action = "cleanupUsers" then
    if isThread = false then
      some [("status", RVal.num 400), ("message", RVal.str "Can only cleanup threads".data)]
    else
      some [("status", RVal.num 200), ("message", RVal.list (cleanupGetUsers authors st.userBans))]
  else if action = "cleanupKeywords" then
    some [("status", RVal.num 200), ("message", RVal.list (cleanupGetKeywords st.keywordBans titles))]
  else if action = "cleanupSubreddits" then
    some [("status", RVal.num 200), ("message", RVal.list (cleanupGetSubreddits st.subredditBans spns))]
  else
    none

/-- C6 counterexample — a thread-mode `cleanupUsers` response carries the
collected author list under the field name `message`, and has no field named
`users` at all. -/
theorem cleanup_response_field_names :
    cleanupRequestHandle ⟨[], [], [], [], false, false, false, false, false⟩
        [some "alice".data] [] [] true "cleanupUsers"
      = some [("status", RVal.num 200), ("message", RVal.list ["alice".data])]
    ∧ List.lookup "users" [("status", RVal.num 200), ("message", RVal.list ["alice".data])]
        = (none : Option RVal) := by
  decide

/-- C6 (amended) — `cleanupUsers` outside thread mode is answered
synchronously with status 400; in thread mode with status 200 and the
collected author list; `cleanupKeywords` and `cleanupSubreddits` with
status 200 and the matched rules — each payload in a field named `message`
(not `users`/`keywords`/`communities`), and the handler never throws (it is
a total function). -/
theorem cleanup_request_statuses (st : RuleStore) (authors titles spns : List (Option Str))
    (isThread : Bool) :
    (isThread = false →
      cleanupRequestHandle st authors titles spns isThread "cleanupUsers"
        = some [("status", RVal.num 400),
                ("message", RVal.str "Can only cleanup threads".data)])
    ∧ (isThread = true →
      cleanupRequestHandle st authors titles spns isThread "cleanupUsers"
        = some [("status", RVal.num 200),
                ("message", RVal.list (cleanupGetUsers authors st.userBans))])
    ∧ cleanupRequestHandle st authors titles spns isThread "cleanupKeywords"
        = some [("status", RVal.num 200),
                ("message", RVal.list (cleanupGetKeywords st.keywordBans titles))]
    ∧ cleanupRequestHandle st authors titles spns isThread "cleanupSubreddits"
        = some [("status", RVal.num 200),
                ("message", RVal.list (cleanupGetSubreddits st.subredditBans spns))] := by
  refine ⟨fun h => ?_, fun h => ?_, ?_, ?_⟩
  · subst h
    rfl
  · subst h
    rfl
  · rfl
  · rfl

/-- Witness for C6 (amended): a concrete non-thread `cleanupUsers` request
is answered with status 400. -/
theorem cleanup_request_statuses_witness :
    cleanupRequestHandle ⟨[], [], [], [], false, false, false, false, false⟩
        [] [] [] false "cleanupUsers"
      = some [("status", RVal.num 400),
              ("message", RVal.str "Can only cleanup threads".data)] :=
  (cleanup_request_statuses ⟨[], [], [], [], false, false, false, false, false⟩
    [] [] [] false).1 rfl

/-- A value stored under a Chrome storage key. -/
inductive SVal
  | strList (l : List Str)
  | flag (b : Bool)
deriving DecidableEq, Repr

/-- One Chrome storage area as a key-value map. -/
def Area := String → Option SVal

/-- `area.set({k: v})` for a single key. -/
def setKey (a : Area) (k : String) (v : SVal) : Area :=
  fun q => if q = k then some v else a q

/-- `area.remove(ks)`. -/
def removeKeys (ks : List String) (a : Area) : Area :=
  fun q => if q ∈ ks then none else a q

/-- Both Chrome storage areas. -/
structure ChromeStorage where
  localArea : Area
  syncArea : Area

/-- The `_data_to_save` object built by `_data_save` (popup.js lines 122-133). -/
structure SaveRecord where
  hiddenUsers : List Str
  hiddenKeywords : List Str
  hiddenSubreddits : List Str
  hiddenDomains : List Str
  loggingEnabled : Bool
  filterUsers : Bool
  filterKeywords : Bool
  filterSubreddits : Bool
  filterDomains : Bool
  enableSync : Bool

/-- The key-value pairs of `_data_to_save`. -/
def recordEntries (r : SaveRecord) : List (String × SVal) :=
  [("hiddenUsers", SVal.strList r.hiddenUsers),
   ("hiddenKeywords", SVal.strList r.hiddenKeywords),
   ("hiddenSubreddits", SVal.strList r.hiddenSubreddits),
   ("hiddenDomains", SVal.strList r.hiddenDomains),
   ("loggingEnabled", SVal.flag r.loggingEnabled),
   ("filterUsers", SVal.flag r.filterUsers),
   ("filterKeywords", SVal.flag r.filterKeywords),
   ("filterSubreddits", SVal.flag r.filterSubreddits),
   ("filterDomains", SVal.flag r.filterDomains),
   ("enableSync", SVal.flag r.enableSync)]

/-- `area.set(_data_to_save)`. -/
def writeRecord (a : Area) (r : SaveRecord) : Area :=
  (recordEntries r).foldl (fun acc kv => setKey acc kv.1 kv.2) a

/-- `_keys_to_remove` of `_data_migrate` (popup.js lines 150-155): current
and legacy key names. -/
def migrateKeyList : List String :=
  ["hiddenUsers", "hiddenKeywords", "hiddenSubreddits", "hiddenDomains",
   "loggingEnabled", "expandImages", "filterUsers", "filterKeywords",
   "filterSubreddits", "filterDomains", "blockUsers", "blockKeywords",
   "blockSubreddits", "blockDomains"]

/-- `_data_migrate` (popup.js lines 147-157): remove the known key set from
the non-active area. -/
def dataMigrate (enableSync : Bool) (st : ChromeStorage) : ChromeStorage :=
  if enableSync then { st with localArea := removeKeys migrateKeyList st.localArea }
  else { st with syncArea := removeKeys migrateKeyList st.syncArea }

/-- `_data_save` (popup.js lines 99-144): write `enableSync` to the
local-only area first (unconditionally), then write the full record to the
active area selected by `enableSync`, then migrate. -/
def dataSave (st : ChromeStorage) (r : SaveRecord) : ChromeStorage :=
  let st1 : ChromeStorage :=
    { st with localArea := setKey st.localArea "enableSync" (SVal.flag r.enableSync) }
  let st2 : ChromeStorage :=
    if r.enableSync then { st1 with syncArea := writeRecord st1.syncArea r }
    else { st1 with localArea := writeRecord st1.localArea r }
  dataMigrate r.enableSync st2

/-- C7 — `save` leaves `enableSync` pinned in the local-only area, writes
the full record to the active area selected by `enableSync`, and migration
removes every known key (current-named and legacy-named) from the
non-active area; in particular with `enableSync` false the record lands in
the local area and the sync area loses all known keys. -/
theorem save_pins_sync_writes_active_migrates (st : ChromeStorage) (r : SaveRecord) :
    (dataSave st r).localArea "enableSync" = some (SVal.flag r.enableSync)
    ∧ (r.enableSync = true →
        (∀ kv ∈ recordEntries r, (dataSave st r).syncArea kv.1 = some kv.2)
        ∧ ∀ k ∈ migrateKeyList, (dataSave st r).localArea k = none)
    ∧ (r.enableSync = false →
        (∀ kv ∈ recordEntries r, (dataSave st r).localArea kv.1 = some kv.2)
        ∧ ∀ k ∈ migrateKeyList, (dataSave st r).syncArea k = none) := by
  refine ⟨?_, fun hb => ⟨fun kv hkv => ?_, fun k hk => ?_⟩,
    fun hb => ⟨fun kv hkv => ?_, fun k hk => ?_⟩⟩
  · cases hb : r.enableSync <;>
      simp [dataSave, dataMigrate, writeRecord, recordEntries, setKey, removeKeys,
        migrateKeyList, hb]
  · simp only [recordEntries, List.mem_cons, List.not_mem_nil, or_false] at hkv
    rcases hkv with h | h | h | h | h | h | h | h | h | h <;> subst h <;>
      simp [dataSave, dataMigrate, writeRecord, recordEntries, setKey, removeKeys,
        migrateKeyList, hb]
  · simp only [migrateKeyList, List.mem_cons, List.not_mem_nil, or_false] at hk
    rcases hk with h | h | h | h | h | h | h | h | h | h | h | h | h | h <;> subst h <;>
      simp [dataSave, dataMigrate, writeRecord, recordEntries, setKey, removeKeys,
        migrateKeyList, hb]
  · simp only [recordEntries, List.mem_cons, List.not_mem_nil, or_false] at hkv
    rcases hkv with h | h | h | h | h | h | h | h | h | h <;> subst h <;>
      simp [dataSave, dataMigrate, writeRecord, recordEntries, setKey, removeKeys,
        migrateKeyList, hb]
  · simp only [migrateKeyList, List.mem_cons, List.not_mem_nil, or_false] at hk
    rcases hk with h | h | h | h | h | h | h | h | h | h | h | h | h | h <;> subst h <;>
      simp [dataSave, dataMigrate, writeRecord, recordEntries, setKey, removeKeys,
        migrateKeyList, hb]

/-- Witness for C7: switching `enableSync` to false on empty areas writes
the record locally and removes the legacy `blockUsers` key from sync. -/
theorem save_pins_sync_writes_active_migrates_witness :
    (dataSave ⟨fun _ => none, fun _ => none⟩
        ⟨[], [], [], [], false, false, false, false, false, false⟩).localArea "hiddenUsers"
      = some (SVal.strList [])
    ∧ (dataSave ⟨fun _ => none, fun _ => none⟩
        ⟨[], [], [], [], false, false, false, false, false, false⟩).syncArea "blockUsers"
      = none :=
  ⟨((save_pins_sync_writes_active_migrates ⟨fun _ => none, fun _ => none⟩
      ⟨[], [], [], [], false, false, false, false, false, false⟩).2.2 rfl).1
      ("hiddenUsers", SVal.strList []) (by simp [recordEntries]),
   ((save_pins_sync_writes_active_migrates ⟨fun _ => none, fun _ => none⟩
      ⟨[], [], [], [], false, false, false, false, false, false⟩).2.2 rfl).2
      "blockUsers" (by simp [migrateKeyList])⟩

end RedditShield
